import Mathlib

/-!
# Verification of the ollamabot dispatch core

Shallow embedding of the Go repository `nexusriot/ollamabot` (packages
`pkg/bot`, `pkg/auth`, `cmd/ollamabot`).  Go strings are modelled as lists of
Unicode code points (`List Char`), matching Go's `[]rune` view; where the Go
code measures a string in bytes (`len(s)`), the byte count is recovered by
`utf8Len`.  Machine `int64` identifiers are modelled as `Int` (no arithmetic
is performed on them, so overflow never matters).  Calls into external
collaborators (the SQLite store, the HTTP backend, the Telegram transport)
are modelled by oracles passed as arguments and by emitted `Action` values.
-/

namespace Ollamabot

/-- Code points of a string literal (Go's `[]rune`). -/
def str (s : String) : List Char := s.data

/-! ## Response chunker: `splitTelegramMessage` (pkg/bot/bot.go 325-339) -/

/-- Number of bytes of the UTF-8 encoding of one code point (what one rune
contributes to Go's `len(s)`). -/
def utf8Size (c : Char) : Nat :=
  if c.val < 0x80 then 1
  else if c.val < 0x800 then 2
  else if c.val < 0x10000 then 3
  else 4

/-- Go's `len(s)` on a string: the UTF-8 byte length. -/
def utf8Len (s : List Char) : Nat := (s.map utf8Size).sum

/-- The loop of `splitTelegramMessage`:
`for len(runes) > max { res = append(res, string(runes[:max])); runes = runes[max:] }`
followed by `if len(runes) > 0 { res = append(res, string(runes)) }`.
For `max = 0` the Go loop never terminates on a nonempty string; the claims
only concern positive limits, and this function is never applied at 0 by
`splitTelegramMessage` on the inputs the theorems quantify over. -/
def splitLoop (runes : List Char) (max : Nat) : List (List Char) :=
  if 0 < max ∧ max < runes.length then
    runes.take max :: splitLoop (runes.drop max) max
  else if 0 < runes.length then [runes]
  else []
termination_by runes.length
decreasing_by
  simp only [List.length_drop]
  omega

/-- Function `splitTelegramMessage(s, max)` (pkg/bot/bot.go 325-339, copies in
the legacy mains): if the *byte* length is at most `max`, return `[s]`;
otherwise split the rune slice into pieces of `max` runes. -/
def splitTelegramMessage (s : List Char) (max : Nat) : List (List Char) :=
  if utf8Len s ≤ max then [s]
  else splitLoop s max

/-! ## Authorization gate: `pkg/auth` (part_002) -/

/-- Result of the store's membership query
`SELECT 1 FROM users WHERE telegram_id = ?`: a row exists, `sql.ErrNoRows`,
or any other database error (carrying its message). -/
inductive QueryResult where
  | found
  | noRows
  | dbError (msg : String)
deriving DecidableEq

/-- The configuration part of `auth.UserStore` (the `db` handle itself is
external; its behaviour enters through a `Int → QueryResult` oracle).
The wiring in `cmd/ollamabot/main.go` always passes a non-nil store, so the
Go `s != nil` guards are vacuous here. -/
structure StoreCfg where
  enabled : Bool
  adminID : Int
deriving DecidableEq

/-- Method `(s *UserStore) IsEnabled()`. -/
def IsEnabled (s : StoreCfg) : Bool := s.enabled

/-- Method `(s *UserStore) IsAdmin(id)`. -/
def IsAdmin (s : StoreCfg) (id : Int) : Bool := s.enabled && id == s.adminID

/-- Method `(s *UserStore) IsAuthorized(id)` (part_002 lines 82-99).  Go returns a
`(bool, error)` pair; it is rendered as `Except`: `.error e` is `(false, e)`
with `e ≠ nil`, `.ok b` is `(b, nil)`. -/
def IsAuthorized (s : StoreCfg) (q : Int → QueryResult) (id : Int) :
    Except String Bool :=
  if !s.enabled then .ok true
  else if id == s.adminID then .ok true
  else
    match q id with
    | .noRows => .ok false
    | .dbError e => .error e
    | .found => .ok true

/-- A row of the `users` table (part_002 `DBUser`). -/
structure DBUser where
  telegramID : Int
  createdAt : String
  lastActivity : String
deriving DecidableEq

/-- Method `(s *UserStore) AddUser(id)` (part_002 lines 101-113), i.e. the effect of
`INSERT INTO users (telegram_id, created_at, last_activity) VALUES (?, ?, ?)
ON CONFLICT(telegram_id) DO UPDATE SET last_activity = excluded.last_activity`
on the table, modelled as a list of rows keyed by `telegram_id` (the primary
key).  `now` is the caller's timestamp string.  A disabled store has no
database and the call is a no-op. -/
def AddUser (enabled : Bool) (db : List DBUser) (id : Int) (now : String) :
    List DBUser :=
  if !enabled then db
  else if db.any (fun u => u.telegramID == id) then
    db.map (fun u =>
      if u.telegramID == id then { u with lastActivity := now } else u)
  else
    db ++ [⟨id, now, now⟩]

/-! ## String helpers used by the dispatch loop -/

/-- Go `unicode.IsSpace` restricted to the ASCII white space characters
(`strings.TrimSpace` / `strings.Fields` cut points; the exotic Unicode space
code points are irrelevant to every claim). -/
def isSpace (c : Char) : Bool :=
  c == ' ' || c == '\t' || c == '\n' || c == '\r' || c == '\x0b' || c == '\x0c'

/-- Go `strings.TrimSpace(s)`. -/
def trimSpace (s : List Char) : List Char :=
  ((s.dropWhile isSpace).reverse.dropWhile isSpace).reverse

/-- Go `strings.HasPrefix(s, pre)`, curried as `hasPrefix pre s`. -/
def hasPrefix : List Char → List Char → Bool
  | [], _ => true
  | _ :: _, [] => false
  | p :: ps, c :: cs => p == c && hasPrefix ps cs

/-- Scanner for `strings.Fields`: `acc` holds the (reversed) word being read.
Splits around maximal runs of white space, producing no empty words. -/
def fieldsAux : List Char → List Char → List (List Char)
  | acc, [] => if acc.isEmpty then [] else [acc.reverse]
  | acc, c :: cs =>
    if isSpace c then
      if acc.isEmpty then fieldsAux [] cs else acc.reverse :: fieldsAux [] cs
    else fieldsAux (c :: acc) cs

/-- Go `strings.Fields(s)`. -/
def fields (s : List Char) : List (List Char) := fieldsAux [] s

/-- Decimal digits of a natural number. -/
def natDigits (n : Nat) : List Char :=
  (Nat.toDigits 10 n)

/-- Decimal `%d` rendering of an `int64`. -/
def intToStr (n : Int) : List Char :=
  if n < 0 then '-' :: natDigits n.natAbs else natDigits n.natAbs

/-- Go `strconv.ParseInt(s, 10, 64)`: optional sign, then a nonempty run of
decimal digits, value within the `int64` range. -/
def parseDigits (s : List Char) : Option Nat :=
  if s.isEmpty then none
  else
    s.foldl (fun acc c =>
      acc.bind (fun n => if c.isDigit then some (10 * n + (c.toNat - 48)) else none))
      (some 0)

def parseInt64 (s : List Char) : Option Int :=
  match s with
  | '+' :: rest =>
    (parseDigits rest).bind (fun n => if n ≤ 2 ^ 63 - 1 then some (n : Int) else none)
  | '-' :: rest =>
    (parseDigits rest).bind (fun n => if n ≤ 2 ^ 63 then some (-(n : Int)) else none)
  | _ =>
    (parseDigits s).bind (fun n => if n ≤ 2 ^ 63 - 1 then some (n : Int) else none)

/-! ## Dispatch loop data model (pkg/bot/bot.go) -/

/-- The mutable state owned by the dispatch loop: `b.model` (`activeModel`).
The remaining `Bot` fields (`api`, `userStore`, `ollamaBaseURL`) are external
handles or immutable configuration. -/
structure BotState where
  model : List Char
deriving DecidableEq

/-- The values the query goroutine closes over: Go
`go func(chatID int64, prompt, modelForCall string)` at bot.go 154/181. -/
structure Task where
  chatID : Int
  prompt : List Char
  modelForCall : List Char
deriving DecidableEq

/-- Effects emitted towards the external collaborators while handling one
message.  `sendText` is `b.api.Send(tgbotapi.NewMessage(...))` (parse-mode
metadata elided), `typing` is `b.api.Send(tgbotapi.NewChatAction(chatID,
ChatTyping))`, `touch` / `addUserReq` are the store writes, and `spawn` is
the creation of the background query goroutine. -/
inductive Action where
  | sendText (chatID : Int) (text : List Char)
  | typing (chatID : Int)
  | touch (userID : Int)
  | addUserReq (userID : Int)
  | spawn (t : Task)
deriving DecidableEq

/-- One inbound Telegram update that passed the `Message == nil` /
`From == nil` guards. -/
structure Msg where
  chatID : Int
  userID : Int
  text : List Char
deriving DecidableEq

/-- External store behaviour visible to one message: the membership query
used by `IsAuthorized`, the error result of the `AddUser` upsert, and the
result of `ListUsers(200)`. -/
structure StoreOracle where
  query : Int → QueryResult
  addErr : Int → Option String
  list : Except String (List DBUser)

/-- bot.go 112. -/
def authErrorString : String := "⚠️ Internal auth error, please try again later."

/-- bot.go 119-120. -/
def notAllowedString : String :=
  "🚫 You are not allowed to use this bot.\nAsk the admin to add your Telegram ID."

/-- bot.go 133-134. -/
def startText (model : List Char) : List Char :=
  str "Hi! Send me any message and I'll forward it to Ollama (" ++ model ++
    str ").\n\nCode blocks with ``` will be rendered as code in Telegram."

/-- bot.go 271. -/
def modelChangedText (model : List Char) : List Char :=
  str "✅ Model changed to `" ++ model ++ str "`"

/-- bot.go 277. -/
def currentModelText (model : List Char) : List Char :=
  str "Current model: `" ++ model ++ str "`\nUsage: `/model llama3.1`"

/-- Handler `handleWhoAmI` (bot.go 239-265): the text of the single message it sends. -/
def whoamiText (store : StoreCfg) (q : Int → QueryResult) (id : Int) : List Char :=
  str "Your info:\n" ++ str "- Telegram ID: " ++ intToStr id ++ str "\n" ++
  (if IsEnabled store then
    str "- Auth: ENABLED\n" ++
    (if IsAdmin store id then str "- Role: admin\n" else str "- Role: user\n") ++
    (match IsAuthorized store q id with
     | .error e => str "- Allowed: ERROR (" ++ e.data ++ str ")\n"
     | .ok true => str "- Allowed: YES\n"
     | .ok false => str "- Allowed: NO\n")
  else
    str "- Auth: DISABLED (bot is open for everyone)\n")

/-- Handler `handleAddUser` (bot.go 185-210).  The store upsert is attempted before
its error is examined, so the `addUserReq` effect is emitted in both of the
last two branches; `o.addErr` tells which reply the admin sees. -/
def handleAddUser (o : StoreOracle) (chatID : Int) (text : List Char) :
    List Action :=
  match fields text with
  | _ :: arg :: _ =>
    match parseInt64 arg with
    | none => [.sendText chatID (str "Invalid user id (must be integer).")]
    | some n =>
      match o.addErr n with
      | some e =>
        [.addUserReq n, .sendText chatID (str "⚠️ Failed to add user: " ++ e.data)]
      | none =>
        [.addUserReq n,
         .sendText chatID (str "✅ User " ++ intToStr n ++ str " has been added/updated.")]
  | _ => [.sendText chatID (str "Usage: /adduser <telegram_id>")]

/-- Handler `handleListUsers` (bot.go 212-237): the text of the reply, given the
store's answer to `ListUsers(200)`. -/
def listUsersText (users : List DBUser) : List Char :=
  users.foldl (fun acc u =>
      acc ++ str "- ID: " ++ intToStr u.telegramID ++
        str "\n  created_at: " ++ u.createdAt.data ++
        str "\n  last_activity: " ++ u.lastActivity.data ++ str "\n")
    (str "Registered users:\n")

def handleListUsers (o : StoreOracle) (chatID : Int) : List Action :=
  match o.list with
  | .error e => [.sendText chatID (str "⚠️ Failed to list users: " ++ e.data)]
  | .ok users =>
    if users.isEmpty then [.sendText chatID (str "No users in DB yet.")]
    else [.sendText chatID (listUsersText users)]

/-- Handler `handleModelCommand` (bot.go 267-281). -/
def handleModelCommand (s : BotState) (chatID : Int) (text : List Char) :
    BotState × List Action :=
  match fields text with
  | _ :: arg :: _ =>
    (⟨arg⟩, [.sendText chatID (modelChangedText arg)])
  | _ => (s, [.sendText chatID (currentModelText s.model)])

/-- bot.go 145-181: the tail of the loop body once the authorization gate has
been passed — `/start`, `/model`, otherwise the free-form query path, which
sends the initial typing indicator, snapshots `currentModel := b.model`, and
spawns the background goroutine.  `acc` carries the actions the gate already
emitted (`Touch` on an allow for an enabled store). -/
def afterGate (s : BotState) (m : Msg) (text : List Char) (acc : List Action) :
    BotState × List Action :=
  if hasPrefix (str "/start") text then
    (s, acc ++ [.sendText m.chatID (startText s.model)])
  else if hasPrefix (str "/model") text then
    let r := handleModelCommand s m.chatID text
    (r.1, acc ++ r.2)
  else
    (s, acc ++ [.typing m.chatID, .spawn ⟨m.chatID, text, s.model⟩])

/-- One iteration of the `for update := range updates` loop in `Run`
(bot.go 74-182): the state after the message and the effects emitted while
handling it, in order. -/
def processMsg (store : StoreCfg) (o : StoreOracle) (s : BotState) (m : Msg) :
    BotState × List Action :=
  let text := trimSpace m.text
  if text.isEmpty then (s, [])
  else if IsEnabled store && IsAdmin store m.userID &&
      hasPrefix (str "/adduser") text then
    (s, handleAddUser o m.chatID text)
  else if IsEnabled store && IsAdmin store m.userID &&
      hasPrefix (str "/listusers") text then
    (s, handleListUsers o m.chatID)
  else if hasPrefix (str "/whoami") text then
    (s, [.sendText m.chatID (whoamiText store o.query m.userID)])
  else if IsEnabled store then
    match IsAuthorized store o.query m.userID with
    | .error _ => (s, [.sendText m.chatID (str authErrorString)])
    | .ok false => (s, [.sendText m.chatID (str notAllowedString)])
    | .ok true => afterGate s m text [.touch m.userID]
  else afterGate s m text []

/-- Sequential processing of a list of inbound messages by the dispatch loop,
accumulating the emitted actions in order. -/
def runMsgs (store : StoreCfg) (o : StoreOracle) (s : BotState) :
    List Msg → BotState × List Action
  | [] => (s, [])
  | m :: ms =>
    let r := processMsg store o s m
    let r' := runMsgs store o r.1 ms
    (r'.1, r.2 ++ r'.2)

/-! ## Backend call (`callOllama`, bot.go 283-323) -/

structure OllamaMessage where
  role : List Char
  content : List Char
deriving DecidableEq

structure OllamaChatRequest where
  model : List Char
  messages : List OllamaMessage
  stream : Bool
deriving DecidableEq

/-- The request body `callOllama(model, prompt)` marshals (bot.go 284-294);
for a spawned task the arguments are exactly the task's captured values
(bot.go 160). -/
def taskRequest (t : Task) : OllamaChatRequest :=
  { model := t.modelForCall
    messages :=
      [⟨str "user",
        t.prompt ++ str "\n\n" ++
          str "Please answer in Markdown. Use fenced code blocks (```lang ... ```)."⟩]
    stream := false }

/-- The client timeout under which `callOllama` issues its request: bot.go 302
uses `http.Post`, i.e. `http.DefaultClient`, whose `Timeout` field is the zero
value — *no* deadline.  No configuration option sets one (cf. `envVarsRead`). -/
def backendCallTimeout : Option Nat := none

/-- The environment variables the program reads at startup
(`cmd/ollamabot/main.go` 50-60 and 19-44): the documented
`OLLAMA_TIMEOUT_SECONDS` / `OLLAMA_STREAM` options are never read. -/
def envVarsRead : List String :=
  ["TELEGRAM_BOT_TOKEN", "OLLAMA_BASE_URL", "OLLAMA_MODEL",
   "BOT_AUTH_ENABLED", "BOT_ADMIN_ID", "BOT_AUTH_DB_PATH"]

/-- Completion behaviour of a blocking HTTP POST: the call returns iff the
backend eventually responds or the client enforces a timeout.  (Go semantics
of `net/http.Client`: a zero `Timeout` means the request can block forever.) -/
def httpPostCompletes (timeout : Option Nat) (backendResponds : Bool) : Bool :=
  backendResponds || timeout.isSome

/-- Whether `callOllama` returns at all, as a function of whether the backend
ever produces a response on the wire. -/
def callOllamaCompletes (backendResponds : Bool) : Bool :=
  httpPostCompletes backendCallTimeout backendResponds

/-! ## Heartbeat (`sendTypingUntilDone`, bot.go 53-66, spawned at 158) -/

/-- Emission times of the ticker loop in `sendTypingUntilDone`, on a discrete
time line: the ticker fires at `t, t+4, t+8, …` and the loop exits when the
`done` channel — closed at time `doneAt`, immediately after `callOllama`
returns (bot.go 160-163) — is observed.  A tick due at the very instant the
call returns was generated before `close(done)` ran and is delivered. -/
def typingEmits (t doneAt : Nat) : List Nat :=
  if t ≤ doneAt then t :: typingEmits (t + 4) doneAt else []
termination_by doneAt + 1 - t
decreasing_by omega

/-- All "typing" indicator emission times for a query whose backend call
returns at time `doneAt`: the initial indicator the loop sends at dispatch
(bot.go 146, time 0) followed by the 4-second ticker of the heartbeat
goroutine. -/
def queryEmissions (doneAt : Nat) : List Nat :=
  0 :: typingEmits 4 doneAt

/-! ## Chunker lemmas -/

theorem one_le_utf8Size (c : Char) : 1 ≤ utf8Size c := by
  unfold utf8Size
  split_ifs <;> omega

theorem length_le_utf8Len (s : List Char) : s.length ≤ utf8Len s := by
  induction s with
  | nil => simp [utf8Len]
  | cons c cs ih =>
    have := one_le_utf8Size c
    simp only [utf8Len, List.map_cons, List.sum_cons, List.length_cons] at *
    omega

theorem splitLoop_flatten (runes : List Char) (max : Nat) :
    (splitLoop runes max).flatten = runes := by
  induction runes, max using splitLoop.induct with
  | case1 runes max h ih =>
    rw [splitLoop, if_pos h]
    simp [ih]
  | case2 runes max h h0 =>
    rw [splitLoop, if_neg h, if_pos h0]
    simp
  | case3 runes max h h0 =>
    rw [splitLoop, if_neg h, if_neg h0]
    simp at h0
    simp [h0]

theorem splitLoop_piece_le (runes : List Char) (max : Nat) :
    0 < max → ∀ p ∈ splitLoop runes max, p.length ≤ max := by
  induction runes, max using splitLoop.induct with
  | case1 runes max h ih =>
    intro hm p hp
    rw [splitLoop, if_pos h] at hp
    rcases List.mem_cons.mp hp with rfl | hp
    · simp [List.length_take]
    · exact ih hm p hp
  | case2 runes max h h0 =>
    intro hm p hp
    rw [splitLoop, if_neg h, if_pos h0] at hp
    rcases List.mem_singleton.mp hp with rfl
    push_neg at h
    have := h hm
    omega
  | case3 runes max h h0 =>
    intro hm p hp
    rw [splitLoop, if_neg h, if_neg h0] at hp
    simp at hp

theorem splitLoop_piece_ne_nil (runes : List Char) (max : Nat) :
    ∀ p ∈ splitLoop runes max, p ≠ [] := by
  induction runes, max using splitLoop.induct with
  | case1 runes max h ih =>
    rw [splitLoop, if_pos h]
    intro p hp
    rcases List.mem_cons.mp hp with rfl | hp
    · intro he
      have hlen := congrArg List.length he
      simp only [List.length_take, List.length_nil] at hlen
      omega
    · exact ih p hp
  | case2 runes max h h0 =>
    rw [splitLoop, if_neg h, if_pos h0]
    intro p hp
    rcases List.mem_singleton.mp hp with rfl
    exact List.length_pos.mp h0
  | case3 runes max h h0 =>
    rw [splitLoop, if_neg h, if_neg h0]
    intro p hp
    simp at hp

/-- C3: for every text and positive limit, the chunks of
`splitTelegramMessage` concatenate back to the text (hence every split point
lies on a code-point boundary: each piece is a contiguous run of whole code
points of the input), every piece has at most `limit` code points, and no
piece is empty unless the text itself is. -/
theorem chunker_roundtrip (s : List Char) (max : Nat) (hm : 0 < max) :
    (splitTelegramMessage s max).flatten = s ∧
    (∀ p ∈ splitTelegramMessage s max, p.length ≤ max) ∧
    (s ≠ [] → ∀ p ∈ splitTelegramMessage s max, p ≠ []) := by
  unfold splitTelegramMessage
  split
  next h =>
    have hlen : s.length ≤ max := le_trans (length_le_utf8Len s) h
    refine ⟨by simp, ?_, ?_⟩
    · intro p hp
      rcases List.mem_singleton.mp hp with rfl
      exact hlen
    · intro hne p hp
      rcases List.mem_singleton.mp hp with rfl
      exact hne
  next h =>
    exact ⟨splitLoop_flatten s max, splitLoop_piece_le s max hm,
      fun _ => splitLoop_piece_ne_nil s max⟩

/-- Witness for `chunker_roundtrip` at `s = "abcde"`, `limit = 2`. -/
theorem chunker_roundtrip_witness :
    (splitTelegramMessage (str "abcde") 2).flatten = str "abcde" :=
  (chunker_roundtrip (str "abcde") 2 (by decide)).1

/-- C8: a text of at most `limit` code points is returned as the single
chunk `[text]` (also when its UTF-8 *byte* length exceeds the limit: the
byte-length fast path is merely skipped and the rune loop emits one piece). -/
theorem chunker_short (s : List Char) (max : Nat) (h : s.length ≤ max) :
    splitTelegramMessage s max = [s] := by
  unfold splitTelegramMessage
  split
  next => rfl
  next hlen =>
    have hne : s ≠ [] := by
      rintro rfl
      simp [utf8Len] at hlen
    have h0 : 0 < s.length := List.length_pos.mpr hne
    rw [splitLoop, if_neg (by omega), if_pos h0]

/-- Witness for `chunker_short` at a 5-code-point, 6-byte text with limit 5. -/
theorem chunker_short_witness :
    splitTelegramMessage (str "héllo") 5 = [str "héllo"] :=
  chunker_short (str "héllo") 5 (by decide)

/-! ## Heartbeat lemmas -/

theorem typingEmits_length (t doneAt : Nat) :
    (typingEmits t doneAt).length =
      if t ≤ doneAt then (doneAt - t) / 4 + 1 else 0 := by
  induction t, doneAt using typingEmits.induct with
  | case1 t doneAt h ih =>
    rw [typingEmits, if_pos h, if_pos h]
    simp only [List.length_cons, ih]
    split_ifs with h4 <;> omega
  | case2 t doneAt h =>
    rw [typingEmits, if_neg h, if_neg h]
    rfl

theorem typingEmits_le (t doneAt : Nat) :
    ∀ x ∈ typingEmits t doneAt, x ≤ doneAt := by
  induction t, doneAt using typingEmits.induct with
  | case1 t doneAt h ih =>
    rw [typingEmits, if_pos h]
    intro x hx
    rcases List.mem_cons.mp hx with rfl | hx
    · exact h
    · exact ih x hx
  | case2 t doneAt h =>
    rw [typingEmits, if_neg h]
    intro x hx
    simp at hx

/-- C6: for a backend call that returns at time `T`, exactly `T / 4 + 1`
processing indicators are emitted (the immediate one at dispatch plus one per
elapsed 4-second ticker interval), and every emission happens no later than
`T` — none after the call has returned, whichever way it returned (the
`close(done)` at bot.go 163 runs on both the success and the error path). -/
theorem heartbeat_spec (T : Nat) :
    (queryEmissions T).length = T / 4 + 1 ∧
    ∀ x ∈ queryEmissions T, x ≤ T := by
  constructor
  · simp only [queryEmissions, List.length_cons, typingEmits_length]
    split_ifs with h <;> omega
  · intro x hx
    rcases List.mem_cons.mp hx with rfl | hx
    · omega
    · exact typingEmits_le 4 T x hx

/-- Witness for `heartbeat_spec` at `T = 9`: three emissions, the last at 8. -/
theorem heartbeat_spec_witness :
    (queryEmissions 9).length = 9 / 4 + 1 ∧ 8 ≤ 9 :=
  ⟨(heartbeat_spec 9).1,
   (heartbeat_spec 9).2 8 (by simp [queryEmissions, typingEmits])⟩

/-! ## Authorization gate theorems -/

/-- C2: the decision of `IsAuthorized`.  Disabled ⇒ allow; enabled admin ⇒
allow regardless of the store; enabled non-admin ⇒ exactly the store's
membership answer, with a store failure surfacing as the distinct error
outcome (`.error`), never as a plain deny. -/
theorem isAuthorized_decides (store : StoreCfg) (q : Int → QueryResult)
    (id : Int) :
    (store.enabled = false → IsAuthorized store q id = .ok true) ∧
    (store.enabled = true → id = store.adminID →
      IsAuthorized store q id = .ok true) ∧
    (store.enabled = true → id ≠ store.adminID →
      (q id = .found → IsAuthorized store q id = .ok true) ∧
      (q id = .noRows → IsAuthorized store q id = .ok false) ∧
      (∀ e, q id = .dbError e → IsAuthorized store q id = .error e)) := by
  refine ⟨fun hd => ?_, fun he hid => ?_, fun he hid => ?_⟩
  · simp [IsAuthorized, hd]
  · simp [IsAuthorized, he, hid]
  · refine ⟨fun hq => ?_, fun hq => ?_, fun e hq => ?_⟩ <;>
      simp [IsAuthorized, he, hid, hq]

/-- Witness for `isAuthorized_decides`: enabled store, non-admin user, failing
query ⇒ the error outcome. -/
theorem isAuthorized_decides_witness :
    IsAuthorized ⟨true, 5⟩ (fun _ => .dbError "boom") 7 = .error "boom" :=
  ((isAuthorized_decides ⟨true, 5⟩ (fun _ => .dbError "boom") 7).2.2
    rfl (by decide)).2.2 "boom" rfl

/-! ## Backend timeout (C5) -/

/-- C5 counterexample: the backend call is issued with *no* client timeout
(`http.Post` = `http.DefaultClient`, zero `Timeout`), so against a backend
that never responds the call never completes — the executor is not guaranteed
to return in finite time, contradicting the claimed bounded timeout. -/
theorem no_backend_timeout :
    backendCallTimeout = none ∧ callOllamaCompletes false = false :=
  ⟨rfl, rfl⟩

/-- C5, what the code actually does: the call completes exactly when the
backend responds (no client-side deadline ever fires), and the documented
`OLLAMA_TIMEOUT_SECONDS` configuration option is never read at startup. -/
theorem backend_call_untimed :
    (∀ b : Bool, callOllamaCompletes b = b) ∧
    ("OLLAMA_TIMEOUT_SECONDS" ∈ envVarsRead) = False := by
  constructor
  · intro b
    cases b <;> rfl
  · simp only [eq_iff_iff, iff_false]
    decide

/-! ## AddUser upsert (C10) -/

/-- C10: the effect of the `AddUser` upsert on the table.  A row whose id is
already present keeps its `created_at` and only gets a fresh
`last_activity`; rows with other ids are untouched; an absent id is appended
as a brand-new row; and the membership of every other id is unchanged. -/
theorem addUser_upsert (db : List DBUser) (id : Int) (now : String) :
    (∀ u ∈ db, u.telegramID = id →
      (⟨u.telegramID, u.createdAt, now⟩ : DBUser) ∈ AddUser true db id now) ∧
    (∀ u ∈ db, u.telegramID ≠ id → u ∈ AddUser true db id now) ∧
    ((∀ u ∈ db, u.telegramID ≠ id) →
      AddUser true db id now = db ++ [⟨id, now, now⟩]) ∧
    (∀ x, x ≠ id →
      ((∃ u ∈ AddUser true db id now, u.telegramID = x) ↔
        (∃ u ∈ db, u.telegramID = x))) := by
  by_cases hmem : db.any (fun u => u.telegramID == id)
  · have heq : AddUser true db id now =
        db.map (fun u =>
          if u.telegramID == id then { u with lastActivity := now } else u) := by
      simp [AddUser, hmem]
    refine ⟨?_, ?_, ?_, ?_⟩
    · intro u hu hid
      rw [heq]
      refine List.mem_map.mpr ⟨u, hu, ?_⟩
      simp [hid]
    · intro u hu hid
      rw [heq]
      refine List.mem_map.mpr ⟨u, hu, ?_⟩
      simp [hid]
    · intro hall
      exfalso
      rcases List.any_eq_true.mp hmem with ⟨u, hu, hid⟩
      exact hall u hu (by simpa using hid)
    · intro x hx
      rw [heq]
      constructor
      · rintro ⟨u, hu, hxu⟩
        rcases List.mem_map.mp hu with ⟨v, hv, rfl⟩
        refine ⟨v, hv, ?_⟩
        by_cases hvid : v.telegramID = id <;> simp [hvid] at hxu ⊢ <;> omega
      · rintro ⟨u, hu, hxu⟩
        by_cases huid : u.telegramID = id
        · omega
        · exact ⟨u, List.mem_map.mpr ⟨u, hu, by simp [huid]⟩, hxu⟩
  · have heq : AddUser true db id now = db ++ [⟨id, now, now⟩] := by
      simp only [AddUser, Bool.not_true, if_neg]
      rw [if_neg hmem]
      rfl
    refine ⟨?_, ?_, fun _ => heq, ?_⟩
    · intro u hu hid
      exfalso
      exact hmem (List.any_eq_true.mpr ⟨u, hu, by simp [hid]⟩)
    · intro u hu _
      rw [heq]
      exact List.mem_append_left _ hu
    · intro x hx
      rw [heq]
      constructor
      · rintro ⟨u, hu, hxu⟩
        rcases List.mem_append.mp hu with hu | hu
        · exact ⟨u, hu, hxu⟩
        · rcases List.mem_singleton.mp hu with rfl
          simp at hxu
          omega
      · rintro ⟨u, hu, hxu⟩
        exact ⟨u, List.mem_append_left _ hu, hxu⟩

/-- Witness for `addUser_upsert`: re-adding user 1 keeps its creation time
and leaves user 2 untouched. -/
theorem addUser_upsert_witness :
    (⟨1, "t0", "t9"⟩ : DBUser) ∈
      AddUser true [⟨1, "t0", "t1"⟩, ⟨2, "t2", "t3"⟩] 1 "t9" ∧
    (⟨2, "t2", "t3"⟩ : DBUser) ∈
      AddUser true [⟨1, "t0", "t1"⟩, ⟨2, "t2", "t3"⟩] 1 "t9" :=
  ⟨(addUser_upsert [⟨1, "t0", "t1"⟩, ⟨2, "t2", "t3"⟩] 1 "t9").1
      ⟨1, "t0", "t1"⟩ (by decide) rfl,
   (addUser_upsert [⟨1, "t0", "t1"⟩, ⟨2, "t2", "t3"⟩] 1 "t9").2.1
      ⟨2, "t2", "t3"⟩ (by decide) (by decide)⟩

/-! ## Dispatch-loop lemmas -/

theorem spawn_not_mem_handleAddUser (o : StoreOracle) (chatID : Int)
    (text : List Char) (t : Task) :
    Action.spawn t ∉ handleAddUser o chatID text := by
  unfold handleAddUser
  repeat' split
  all_goals simp

theorem spawn_not_mem_handleListUsers (o : StoreOracle) (chatID : Int)
    (t : Task) :
    Action.spawn t ∉ handleListUsers o chatID := by
  unfold handleListUsers
  cases o.list with
  | error e => simp
  | ok users =>
    by_cases hu : users.isEmpty <;> simp [hu]

theorem spawn_not_mem_handleModelCommand (s : BotState) (chatID : Int)
    (text : List Char) (t : Task) :
    Action.spawn t ∉ (handleModelCommand s chatID text).2 := by
  unfold handleModelCommand
  repeat' split
  all_goals simp

theorem spawn_mem_afterGate (s : BotState) (m : Msg) (text : List Char)
    (acc : List Action) (t : Task)
    (h : Action.spawn t ∈ (afterGate s m text acc).2) :
    Action.spawn t ∈ acc ∨ t = ⟨m.chatID, text, s.model⟩ := by
  unfold afterGate at h
  split_ifs at h with h1 h2
  · rcases List.mem_append.mp h with h | h
    · exact Or.inl h
    · simp at h
  · rcases List.mem_append.mp h with h | h
    · exact Or.inl h
    · exact absurd h (spawn_not_mem_handleModelCommand s m.chatID text t)
  · rcases List.mem_append.mp h with h | h
    · exact Or.inl h
    · simp at h
      exact Or.inr h

/-- Every spawned query task carries the chat target, the trimmed prompt and
— crucially — the model captured from the state in which the message was
processed. -/
theorem spawn_mem_processMsg (store : StoreCfg) (o : StoreOracle)
    (s : BotState) (m : Msg) (t : Task)
    (h : Action.spawn t ∈ (processMsg store o s m).2) :
    t = ⟨m.chatID, trimSpace m.text, s.model⟩ := by
  simp only [processMsg] at h
  split_ifs at h with h1 h2 h3 h4 h5
  · simp at h
  · exact absurd h (spawn_not_mem_handleAddUser o m.chatID (trimSpace m.text) t)
  · exact absurd h (spawn_not_mem_handleListUsers o m.chatID t)
  · simp at h
  · rcases hA : IsAuthorized store o.query m.userID with e | b
    · rw [hA] at h
      simp at h
    · rw [hA] at h
      cases b with
      | false => simp at h
      | true =>
        rcases spawn_mem_afterGate s m (trimSpace m.text) _ t h with hc | hc
        · simp at hc
        · exact hc
  · rcases spawn_mem_afterGate s m (trimSpace m.text) [] t h with hc | hc
    · simp at hc
    · exact hc

theorem touch_not_mem_handleAddUser (o : StoreOracle) (chatID : Int)
    (text : List Char) (u : Int) :
    Action.touch u ∉ handleAddUser o chatID text := by
  unfold handleAddUser
  repeat' split
  all_goals simp

theorem touch_not_mem_handleListUsers (o : StoreOracle) (chatID : Int)
    (u : Int) :
    Action.touch u ∉ handleListUsers o chatID := by
  unfold handleListUsers
  cases o.list with
  | error e => simp
  | ok users =>
    by_cases hu : users.isEmpty <;> simp [hu]

theorem touch_not_mem_handleModelCommand (s : BotState) (chatID : Int)
    (text : List Char) (u : Int) :
    Action.touch u ∉ (handleModelCommand s chatID text).2 := by
  unfold handleModelCommand
  repeat' split
  all_goals simp

theorem touch_mem_afterGate (s : BotState) (m : Msg) (text : List Char)
    (acc : List Action) (u : Int)
    (h : Action.touch u ∈ (afterGate s m text acc).2) :
    Action.touch u ∈ acc := by
  unfold afterGate at h
  split_ifs at h with h1 h2
  · rcases List.mem_append.mp h with h | h
    · exact h
    · simp at h
  · rcases List.mem_append.mp h with h | h
    · exact h
    · exact absurd h (touch_not_mem_handleModelCommand s m.chatID text u)
  · rcases List.mem_append.mp h with h | h
    · exact h
    · simp at h

theorem runMsgs_append (store : StoreCfg) (o : StoreOracle) (s : BotState)
    (xs ys : List Msg) :
    runMsgs store o s (xs ++ ys) =
      ((runMsgs store o (runMsgs store o s xs).1 ys).1,
       (runMsgs store o s xs).2 ++ (runMsgs store o (runMsgs store o s xs).1 ys).2) := by
  induction xs generalizing s with
  | nil => simp [runMsgs]
  | cons x xs ih => simp [runMsgs, ih]

/-! ## Command routing (C1) -/

def isSpawnA : Action → Bool
  | .spawn _ => true
  | _ => false

/-- C1 counterexample: with authorization disabled, the message `/startfoo`
— whose first whitespace-delimited token is none of the five command tokens —
is dispatched to the `/start` handler (its greeting is sent) and is *not*
treated as a free-form query: no query task is spawned.  Recognition is by
`strings.HasPrefix`, not by exact first-token match. -/
theorem command_routing_counterexample :
    (processMsg ⟨false, 0⟩ ⟨fun _ => .noRows, fun _ => none, .ok []⟩
        ⟨str "llama"⟩ ⟨1, 2, str "/startfoo"⟩).2 =
      [.sendText 1 (startText (str "llama"))] ∧
    ((processMsg ⟨false, 0⟩ ⟨fun _ => .noRows, fun _ => none, .ok []⟩
        ⟨str "llama"⟩ ⟨1, 2, str "/startfoo"⟩).2.any isSpawnA) = false := by
  constructor <;> decide

/-- C1 (amended): command recognition is by *string prefix* on the trimmed
text, tested in source order.  For a message that is not an admin command and
not `/whoami` and that passes the authorization gate: a text with prefix
`/start` goes to the start handler, otherwise a text with prefix `/model`
goes to the model handler, and only a text starting with neither prefix is
treated as a free-form query (typing indicator plus spawned task). -/
theorem processMsg_gate (store : StoreCfg) (o : StoreOracle)
    (s : BotState) (m : Msg)
    (hne : (trimSpace m.text).isEmpty = false)
    (hadd : (IsEnabled store && IsAdmin store m.userID &&
      hasPrefix (str "/adduser") (trimSpace m.text)) = false)
    (hlist : (IsEnabled store && IsAdmin store m.userID &&
      hasPrefix (str "/listusers") (trimSpace m.text)) = false)
    (hwho : hasPrefix (str "/whoami") (trimSpace m.text) = false)
    (hgate : store.enabled = false ∨
      IsAuthorized store o.query m.userID = .ok true) :
    processMsg store o s m =
      afterGate s m (trimSpace m.text)
        (if store.enabled then [Action.touch m.userID] else []) := by
  simp only [processMsg]
  rw [if_neg (by simp [hne]), if_neg (by simp [hadd]), if_neg (by simp [hlist]),
    if_neg (by simp [hwho])]
  cases he : store.enabled with
  | false =>
    rw [if_neg (by simp [IsEnabled, he]), if_neg (by simp)]
  | true =>
    have hAuth : IsAuthorized store o.query m.userID = .ok true := by
      rcases hgate with hg | hg
      · rw [he] at hg
        cases hg
      · exact hg
    rw [if_pos (by simp [IsEnabled, he]), hAuth, if_pos rfl]

theorem dispatch_prefix_routing (store : StoreCfg) (o : StoreOracle)
    (s : BotState) (m : Msg)
    (hne : (trimSpace m.text).isEmpty = false)
    (hadd : (IsEnabled store && IsAdmin store m.userID &&
      hasPrefix (str "/adduser") (trimSpace m.text)) = false)
    (hlist : (IsEnabled store && IsAdmin store m.userID &&
      hasPrefix (str "/listusers") (trimSpace m.text)) = false)
    (hwho : hasPrefix (str "/whoami") (trimSpace m.text) = false)
    (hgate : store.enabled = false ∨
      IsAuthorized store o.query m.userID = .ok true) :
    (hasPrefix (str "/start") (trimSpace m.text) = true →
      processMsg store o s m =
        (s, (if store.enabled then [Action.touch m.userID] else []) ++
          [.sendText m.chatID (startText s.model)])) ∧
    (hasPrefix (str "/start") (trimSpace m.text) = false →
     hasPrefix (str "/model") (trimSpace m.text) = true →
      processMsg store o s m =
        ((handleModelCommand s m.chatID (trimSpace m.text)).1,
         (if store.enabled then [Action.touch m.userID] else []) ++
           (handleModelCommand s m.chatID (trimSpace m.text)).2)) ∧
    (hasPrefix (str "/start") (trimSpace m.text) = false →
     hasPrefix (str "/model") (trimSpace m.text) = false →
      processMsg store o s m =
        (s, (if store.enabled then [Action.touch m.userID] else []) ++
          [.typing m.chatID, .spawn ⟨m.chatID, trimSpace m.text, s.model⟩])) := by
  rw [processMsg_gate store o s m hne hadd hlist hwho hgate]
  unfold afterGate
  refine ⟨fun h1 => ?_, fun h1 h2 => ?_, fun h1 h2 => ?_⟩
  · rw [if_pos h1]
  · rw [if_neg (by simp [h1]), if_pos h2]
  · rw [if_neg (by simp [h1]), if_neg (by simp [h2])]

/-- Witness for `dispatch_prefix_routing`: `/startfoo` with authorization
disabled reaches the start handler. -/
theorem dispatch_prefix_routing_witness :
    processMsg ⟨false, 0⟩ ⟨fun _ => .noRows, fun _ => none, .ok []⟩
        ⟨str "a"⟩ ⟨1, 2, str "/startfoo"⟩ =
      (⟨str "a"⟩, [.sendText 1 (startText (str "a"))]) := by
  have h := (dispatch_prefix_routing ⟨false, 0⟩
      ⟨fun _ => .noRows, fun _ => none, .ok []⟩ ⟨str "a"⟩ ⟨1, 2, str "/startfoo"⟩
      (by decide) (by decide) (by decide) (by decide) (Or.inl rfl)).1 (by decide)
  simpa using h

/-! ## Model snapshot at dispatch (C4) -/

/-- C4: a task spawned while processing message `m` — after any prefix `pre`
of the inbound traffic — carries as `modelForCall` exactly the `activeModel`
value at the moment of dispatch, and that same task (with that same model)
appears unchanged in the action trace of the full run, whatever messages
(e.g. `/model` switches) arrive afterwards in `post`. -/
theorem model_snapshot (store : StoreCfg) (o : StoreOracle) (s : BotState)
    (pre : List Msg) (m : Msg) (post : List Msg) (t : Task)
    (h : Action.spawn t ∈ (processMsg store o (runMsgs store o s pre).1 m).2) :
    t.modelForCall = (runMsgs store o s pre).1.model ∧
    (taskRequest t).model = (runMsgs store o s pre).1.model ∧
    Action.spawn t ∈ (runMsgs store o s (pre ++ m :: post)).2 := by
  have ht := spawn_mem_processMsg store o _ m t h
  refine ⟨by rw [ht], by rw [ht]; rfl, ?_⟩
  rw [runMsgs_append]
  refine List.mem_append.mpr (Or.inr ?_)
  show Action.spawn t ∈ (runMsgs store o _ (m :: post)).2
  simp only [runMsgs]
  exact List.mem_append.mpr (Or.inl h)

/-- Witness for `model_snapshot`: a query dispatched under model `"a"`,
followed by a `/model b` switch, still requests model `"a"`. -/
theorem model_snapshot_witness :
    (taskRequest ⟨1, str "hello", str "a"⟩).model =
      (runMsgs ⟨false, 0⟩ ⟨fun _ => .noRows, fun _ => none, .ok []⟩
        ⟨str "a"⟩ []).1.model ∧
    Action.spawn ⟨1, str "hello", str "a"⟩ ∈
      (runMsgs ⟨false, 0⟩ ⟨fun _ => .noRows, fun _ => none, .ok []⟩
        ⟨str "a"⟩ ([] ++ ⟨1, 2, str "hello"⟩ :: [⟨1, 2, str "/model b"⟩])).2 := by
  have h := model_snapshot ⟨false, 0⟩ ⟨fun _ => .noRows, fun _ => none, .ok []⟩
    ⟨str "a"⟩ [] ⟨1, 2, str "hello"⟩ [⟨1, 2, str "/model b"⟩]
    ⟨1, str "hello", str "a"⟩ (by decide)
  exact ⟨h.2.1, h.2.2⟩

/-! ## Authorization failure handling (C7) -/

/-- C7 (amended): for a message from a non-admin user that is not `/whoami`
(a `/whoami` message renders its own status report instead of hitting the
gate), a failing store query makes the dispatch send exactly the generic
try-again-later message — which differs from the not-allowed message — leave
the state unchanged, and emit no further effect; and a `Touch` of the
last-activity timestamp is emitted only when the gate's outcome is Allow. -/
theorem auth_failure_path (store : StoreCfg) (o : StoreOracle) (s : BotState)
    (m : Msg)
    (he : store.enabled = true)
    (hna : IsAdmin store m.userID = false)
    (hwho : hasPrefix (str "/whoami") (trimSpace m.text) = false)
    (hne : (trimSpace m.text).isEmpty = false) :
    (∀ e, o.query m.userID = .dbError e →
      processMsg store o s m = (s, [.sendText m.chatID (str authErrorString)])) ∧
    str authErrorString ≠ str notAllowedString ∧
    (∀ u, Action.touch u ∈ (processMsg store o s m).2 →
      IsAuthorized store o.query m.userID = .ok true) := by
  have hid : ¬(m.userID = store.adminID) := by
    intro hc
    rw [IsAdmin, he, hc] at hna
    simp at hna
  have hAdm : (IsAdmin store m.userID : Bool) = false := hna
  refine ⟨fun e hq => ?_, by decide, fun u hu => ?_⟩
  · have hAuth : IsAuthorized store o.query m.userID = .error e :=
      ((isAuthorized_decides store o.query m.userID).2.2 he hid).2.2 e hq
    simp only [processMsg]
    rw [if_neg (by simp [hne]), if_neg (by simp [hAdm]), if_neg (by simp [hAdm]),
      if_neg (by simp [hwho]), if_pos (by simp [IsEnabled, he]), hAuth]
  · simp only [processMsg] at hu
    rw [if_neg (by simp [hne]), if_neg (by simp [hAdm]), if_neg (by simp [hAdm]),
      if_neg (by simp [hwho]), if_pos (by simp [IsEnabled, he])] at hu
    rcases hA : IsAuthorized store o.query m.userID with e | b
    · rw [hA] at hu
      simp at hu
    · rw [hA] at hu
      cases b with
      | false => simp at hu
      | true => rfl

/-- C7 counterexample: a `/whoami` message from a non-admin user whose store
query fails is answered with the who-am-I report (ending in
`Allowed: ERROR (…)`), not with the generic try-again-later message the
claim requires for every message with a failing store query. -/
theorem auth_failure_whoami_counterexample :
    (processMsg ⟨true, 9⟩ ⟨fun _ => .dbError "boom", fun _ => none, .ok []⟩
        ⟨str "m"⟩ ⟨1, 2, str "/whoami"⟩).2 =
      [.sendText 1 (whoamiText ⟨true, 9⟩ (fun _ => .dbError "boom") 2)] ∧
    whoamiText ⟨true, 9⟩ (fun _ => .dbError "boom") 2 ≠ str authErrorString := by
  constructor <;> decide

/-- Witness for `auth_failure_path`: a plain query from non-admin user 2 with
a failing store yields exactly the try-again-later message. -/
theorem auth_failure_path_witness :
    processMsg ⟨true, 9⟩ ⟨fun _ => .dbError "boom", fun _ => none, .ok []⟩
        ⟨str "m"⟩ ⟨1, 2, str "hi"⟩ =
      (⟨str "m"⟩, [.sendText 1 (str authErrorString)]) :=
  (auth_failure_path ⟨true, 9⟩ ⟨fun _ => .dbError "boom", fun _ => none, .ok []⟩
      ⟨str "m"⟩ ⟨1, 2, str "hi"⟩ rfl (by decide) (by decide) (by decide)).1
    "boom" rfl

/-! ## The `/model` command (C9) -/

/-- C9: `/model` without an argument leaves the state untouched and only
reports the current model, while `/model foo` sets `activeModel` to the
first argument, and every query dispatched afterwards from the resulting
state snapshots that new value into its task. -/
theorem model_command_spec (s : BotState) (chatID : Int) (text : List Char) :
    ((fields text).length < 2 →
      handleModelCommand s chatID text =
        (s, [.sendText chatID (currentModelText s.model)])) ∧
    (∀ tok a rest, fields text = tok :: a :: rest →
      (handleModelCommand s chatID text).1.model = a ∧
      ∀ (store : StoreCfg) (o : StoreOracle) (m : Msg) (t : Task),
        Action.spawn t ∈
          (processMsg store o (handleModelCommand s chatID text).1 m).2 →
        t.modelForCall = a) := by
  constructor
  · intro hlt
    unfold handleModelCommand
    rcases hf : fields text with _ | ⟨tok, _ | ⟨a, rest⟩⟩
    · rfl
    · rfl
    · rw [hf] at hlt
      simp only [List.length_cons] at hlt
      omega
  · intro tok a rest hf
    unfold handleModelCommand
    rw [hf]
    refine ⟨rfl, fun store o m t h => ?_⟩
    have := spawn_mem_processMsg store o _ m t h
    rw [this]

/-- Witness for `model_command_spec`: `/model foo` sets the model to `foo`. -/
theorem model_command_spec_witness :
    (handleModelCommand ⟨str "a"⟩ 1 (str "/model foo")).1.model = str "foo" :=
  ((model_command_spec ⟨str "a"⟩ 1 (str "/model foo")).2
    (str "/model") (str "foo") [] (by decide)).1

end Ollamabot
